import Mathlib

/-!
# Shallow embedding of the Focus Flicker / Flex Sort assessment engine

This file models the two task engines of the repository (the match variant
`FlexSortTask` and the change-detection variant `FocusFlickerTask`, both in
`src/unnamed/part_003`) and proves properties of their trial generators,
adaptive staircase, trigger flags and scoring formulas.

Modelling conventions, fixed once here:

* `Math.random()` draws are modelled by a stream of natural numbers
  (`Rng := List Nat`); each JavaScript expression
  `Math.floor(Math.random() * n)` consumes one element `v` of the stream and
  yields `v % n` (an exhausted stream yields `0`).  Every theorem about
  generated data quantifies over the whole stream, so nothing depends on a
  particular distribution.
* `array.sort(() => Math.random() - 0.5)` (a shuffle through a random
  comparator) is modelled as drawing an arbitrary permutation from the
  stream: repeatedly pick a random remaining index and remove that element.
  All properties proved about shuffled lists are permutation-invariant, so
  the exact permutation drawn is irrelevant.
* JavaScript numbers are modelled as exact rationals (`ℚ`) for the score
  arithmetic and as integers (`ℤ`) for the millisecond staircase;
  `Math.round` is `jsRound q = ⌊q + 1/2⌋` and `Math.max`/`Math.min` are
  `max`/`min`.
* React component state is modelled by explicit state records.  One user
  event (a card selection or a change/no-change response, together with the
  `setTimeout` continuation it schedules) is one transition.  Inside a
  transition, reads of state refer to the snapshot the render closed over,
  and the enqueued `setX` updates produce the next state — in particular the
  `setTimeout` callback of `handleResponse` closes over the snapshot values
  of `displayMs`, `hits`, `falseAlarms` and `guidedModeTriggered`, which is
  reflected literally in the embedding.
* Wall-clock data (timestamps, `completed_at`) is outside the model;
  response times are carried as opaque rational inputs.
-/

/-- JavaScript `Math.round` on exact rationals: round half toward plus
infinity. -/
def jsRound (q : ℚ) : ℤ := ⌊q + 1/2⌋

/-- The stream of random draws. -/
abbrev Rng : Type := List Nat

/-- Consume one draw; an exhausted stream yields 0. -/
def Rng.next : Rng → Nat × Rng
  | [] => (0, [])
  | v :: rest => (v, rest)

/-- `Math.floor(Math.random() * xs.length)`-indexing into a non-empty array:
consume one draw `v` and return `xs[v % xs.length]`. -/
def Rng.pick [Inhabited α] (xs : List α) (g : Rng) : α × Rng :=
  let p := g.next
  (xs.getD (p.1 % xs.length) default, p.2)

/-- Card colors (`CardData['color']`). -/
inductive Color | red | blue | green | yellow
  deriving DecidableEq, Repr, Inhabited

/-- Card shapes (`CardData['shape']`). -/
inductive Shape | circle | square | triangle | diamond
  deriving DecidableEq, Repr, Inhabited

/-- The stimulus value type `CardData`: color, shape and count. -/
structure CardData where
  color : Color
  shape : Shape
  number : Nat
  deriving DecidableEq, Repr, Inhabited

/-- `const colors = ['red', 'blue', 'green', 'yellow']`. -/
def colorsList : List Color := [.red, .blue, .green, .yellow]

/-- `const shapes = ['circle', 'square', 'triangle', 'diamond']`. -/
def shapesList : List Shape := [.circle, .square, .triangle, .diamond]

/-- `const numbers = [1, 2, 3, 4]`. -/
def numbersList : List Nat := [1, 2, 3, 4]

/-- `generateCard`: one uniformly random value per dimension (identical in
both task components). -/
def generateCard (g : Rng) : CardData × Rng :=
  let c := Rng.pick colorsList g
  let s := Rng.pick shapesList c.2
  let n := Rng.pick numbersList s.2
  (⟨c.1, s.1, n.1⟩, n.2)

/-- The matching rule of the match variant. -/
inductive Rule | color | shape | number
  deriving DecidableEq, Repr, Inhabited

/-- Whether two cards agree on the dimension named by `rule`. -/
def matchesOnRule (rule : Rule) (a b : CardData) : Bool :=
  match rule with
  | .color => a.color = b.color
  | .shape => a.shape = b.shape
  | .number => a.number = b.number

/-- Whether two cards agree on at least one of the three dimensions. -/
def sharesDimension (a b : CardData) : Bool :=
  a.color = b.color || a.shape = b.shape || a.number = b.number

/-- `otherXs[Math.floor(Math.random() * otherXs.length)]` where
`otherXs = xs.filter (· ≠ x)`: a random legal value different from `x`. -/
def Rng.pickOther [Inhabited α] [DecidableEq α] (xs : List α) (x : α) (g : Rng) : α × Rng :=
  Rng.pick (xs.filter (· ≠ x)) g

/-- The correct option of a match trial: a copy of the target whose
non-ruled dimensions are replaced by random different values
(`generateTrial`, the three `if (rule !== ...)` blocks). -/
def genCorrectOption (rule : Rule) (target : CardData) (g : Rng) : CardData × Rng :=
  let c :=
    if rule ≠ Rule.color then Rng.pickOther colorsList target.color g
    else (target.color, g)
  let s :=
    if rule ≠ Rule.shape then Rng.pickOther shapesList target.shape c.2
    else (target.shape, c.2)
  let n :=
    if rule ≠ Rule.number then Rng.pickOther numbersList target.number s.2
    else (target.number, s.2)
  (⟨c.1, s.1, n.1⟩, n.2)

/-- The rejection test of the distractor loop: the candidate shares a
dimension with the target or duplicates an already chosen option. -/
def badDistractor (target : CardData) (options : List CardData) (c : CardData) : Bool :=
  sharesDimension c target || options.any (fun opt => opt = c)

/-- The bounded `do … while` rejection loop of `generateTrial`: draw a card,
increment `attempts`, and repeat while `attempts < 50` and the card is
rejected.  `fuel` is only a structural-recursion bound; called with
`fuel = 50` the `0` branch is unreachable because each level checks
`attempts + 1 < 50` before recursing.  Returns the last drawn card and the
final value of `attempts`. -/
def distractorLoop (target : CardData) (options : List CardData) :
    Nat → Nat → Rng → CardData × Nat × Rng
  | attempts, 0, g =>
    let c := generateCard g
    (c.1, attempts + 1, c.2)
  | attempts, fuel + 1, g =>
    let c := generateCard g
    if attempts + 1 < 50 && badDistractor target options c.1 then
      distractorLoop target options (attempts + 1) fuel c.2
    else
      (c.1, attempts + 1, c.2)

/-- The fallback path of `generateTrial` (`if (attempts >= 50)`): draw a
fresh random card and, only if it matches the target on the ruled
dimension, replace that dimension with a random different value.  The other
two dimensions are left as drawn. -/
def fallbackDistractor (rule : Rule) (target : CardData) (g : Rng) : CardData × Rng :=
  let c := generateCard g
  match rule with
  | .color =>
    if c.1.color = target.color then
      let v := Rng.pickOther colorsList target.color c.2
      ({ c.1 with color := v.1 }, v.2)
    else c
  | .shape =>
    if c.1.shape = target.shape then
      let v := Rng.pickOther shapesList target.shape c.2
      ({ c.1 with shape := v.1 }, v.2)
    else c
  | .number =>
    if c.1.number = target.number then
      let v := Rng.pickOther numbersList target.number c.2
      ({ c.1 with number := v.1 }, v.2)
    else c

/-- One incorrect option: the bounded rejection loop followed, when the
attempt budget was exhausted, by the fallback construction.  Returns the
card together with the loop's final `attempts` counter (which records
whether the fallback ran). -/
def genDistractor (rule : Rule) (target : CardData) (options : List CardData) (g : Rng) :
    CardData × Nat × Rng :=
  let r := distractorLoop target options 0 50 g
  if 50 ≤ r.2.1 then
    let f := fallbackDistractor rule target r.2.2
    (f.1, r.2.1, f.2)
  else r

/-- The recursion of `shuffle`, structural on a fuel that is kept equal to
the list length: pick a random index, move that element to the front, and
recurse on the rest. -/
def shuffleGo : Nat → List α → Rng → List α × Rng
  | 0, _, g => ([], g)
  | fuel + 1, xs, g =>
    match xs with
    | [] => ([], g)
    | x :: rest =>
      let p := g.next
      let j := p.1 % (rest.length + 1)
      let e := (x :: rest).getD j x
      let r := shuffleGo fuel ((x :: rest).eraseIdx j) p.2
      (e :: r.1, r.2)

/-- Model of `array.sort(() => Math.random() - 0.5)`: draw a permutation
from the stream by repeatedly removing a randomly chosen element. -/
def shuffle (xs : List α) (g : Rng) : List α × Rng :=
  shuffleGo xs.length xs g

/-- The match-variant trial record (`FlexSortTrial`). -/
structure FlexSortTrial where
  target : CardData
  options : List CardData
  correctIndex : Nat
  rule : Rule
  blockIndex : Nat
  deriving DecidableEq, Repr, Inhabited

/-- All intermediate values of one `generateTrial` call, so that theorems
can talk about the individual distractors and about whether the fallback
path ran. -/
structure TrialParts where
  target : CardData
  correctOption : CardData
  d1 : CardData
  attempts1 : Nat
  d2 : CardData
  attempts2 : Nat
  shuffled : List CardData
  rng : Rng
  deriving Repr

/-- The computation of `generateTrial(rule, blockIndex)` up to the final
record: target, correct option, the two distractors (with their attempt
counters) and the shuffled options list.  `findIdx` stands for
`findIndex`; the sought card is always a member of the list (it is one of
the three shuffled cards), so the `-1` branch of `findIndex` is
unreachable. -/
def mkTrialParts (rule : Rule) (g : Rng) : TrialParts :=
  let t := generateCard g
  let co := genCorrectOption rule t.1 t.2
  let r1 := genDistractor rule t.1 [co.1] co.2
  let r2 := genDistractor rule t.1 [co.1, r1.1] r1.2.2
  let sh := shuffle [co.1, r1.1, r2.1] r2.2.2
  { target := t.1, correctOption := co.1,
    d1 := r1.1, attempts1 := r1.2.1,
    d2 := r2.1, attempts2 := r2.2.1,
    shuffled := sh.1, rng := sh.2 }

/-- `generateTrial(rule, blockIndex)` of the match variant. -/
def generateTrial (rule : Rule) (blockIndex : Nat) (g : Rng) : FlexSortTrial × Rng :=
  let p := mkTrialParts rule g
  ({ target := p.target,
     options := p.shuffled,
     correctIndex := p.shuffled.findIdx (fun opt => opt = p.correctOption),
     rule := rule,
     blockIndex := blockIndex }, p.rng)

/-! ## Match variant: session schedule, per-trial handler, scoring -/

/-- `const rules = ['color', 'shape', 'number']` of the trial-generation
effect. -/
def rulesSchedule : List Rule := [.color, .shape, .number]

/-- `rules[block % 3]`: the rule of a block. -/
def blockRule (block : Nat) : Rule := rulesSchedule.getD (block % 3) default

/-- The inner loop of the match variant's trial-generation effect: `count`
trials for one block, all with the block's rule. -/
def genMatchBlock (rule : Rule) (block : Nat) : Nat → Rng → List FlexSortTrial × Rng
  | 0, g => ([], g)
  | count + 1, g =>
    let t := generateTrial rule block g
    let rest := genMatchBlock rule block count t.2
    (t.1 :: rest.1, rest.2)

/-- The outer loop: for each block index, six trials with `rules[block % 3]`. -/
def genMatchBlocks : List Nat → Rng → List FlexSortTrial × Rng
  | [], g => ([], g)
  | b :: bs, g =>
    let blk := genMatchBlock (blockRule b) b 6 g
    let rest := genMatchBlocks bs blk.2
    (blk.1 ++ rest.1, rest.2)

/-- The 36-trial match session (6 blocks of 6 trials) generated by the
component's mount effect. -/
def genMatchTrials (g : Rng) : List FlexSortTrial × Rng :=
  genMatchBlocks (List.range 6) g

/-- One entry of the match variant's `TrialData` history.  The constant
fields `trial_type: 'core'` and the wall-clock `timestamp` are omitted;
`user_choice` keeps the chosen index rather than the string
`option_<index>`. -/
structure MatchRec where
  trial_number : Nat
  user_choice : Nat
  correct : Bool
  rule : Rule
  response_time : ℚ
  perseverative : Bool
  adaptation_latency : Option Nat
  initial_rule_discovery_latency : Option Nat
  rule_switch : Bool
  consecutive_errors : Nat
  trial_in_block : Nat
  rule_block_number : Nat
  deriving DecidableEq, Repr, Inhabited

/-- The component state of `FlexSortTask` that the claims touch.  The
mirror counters `totalConsecutiveErrors` and
`currentBlockConsecutiveErrors` are carried by the source only for console
logging and are omitted here. -/
structure MatchState where
  idx : Nat := 0
  trialData : List MatchRec := []
  consecutiveErrors : Nat := 0
  blockErrorCounts : List Nat := List.replicate 6 0
  firstCorrectInBlock : List Bool := List.replicate 6 false
  initialRuleDiscoveryLatency : Option Nat := none
  currentBlockIndex : Nat := 0
  adaptationLatency : Nat := 0
  guidedModeTriggered : Bool := false
  ruleTrainingTriggered : Bool := false
  extendedBlockTriggered : Bool := false
  deriving DecidableEq, Repr, Inhabited

/-- One response of the match variant: `handleCardSelect(cardIndex)`
followed by the `handleNextTrial` advance.  All reads refer to the state
snapshot `s`; in particular `currentAdaptationLatency` reads the block
error count before this trial's increment, exactly as the source closure
does. -/
def handleCardSelect (trials : List FlexSortTrial) (s : MatchState)
    (cardIndex : Nat) (rt : ℚ) : MatchState :=
  match trials[s.idx]? with
  | none => s
  | some t =>
    let isCorrect : Bool := cardIndex = t.correctIndex
    let currentBlockIdx := t.blockIndex
    let trialInBlock := s.idx % 6 + 1
    let ruleBlockNumber := currentBlockIdx + 1
    let isRuleSwitch : Bool :=
      decide (0 < s.idx) && decide ((trials.getD (s.idx - 1) default).rule ≠ t.rule)
    let newConsecutiveErrors := if isCorrect then 0 else s.consecutiveErrors + 1
    let blockErrorCounts2 :=
      if isCorrect then s.blockErrorCounts
      else s.blockErrorCounts.set currentBlockIdx
        (s.blockErrorCounts.getD currentBlockIdx 0 + 1)
    let firstCorrect2 :=
      if isCorrect && !(s.firstCorrectInBlock.getD currentBlockIdx false) then
        s.firstCorrectInBlock.set currentBlockIdx true
      else s.firstCorrectInBlock
    let initialLatency2 :=
      if isCorrect && !(s.firstCorrectInBlock.getD currentBlockIdx false)
          && decide (currentBlockIdx = 0) && decide (s.initialRuleDiscoveryLatency = none) then
        some (s.idx + 1)
      else s.initialRuleDiscoveryLatency
    let currentAdaptationLatency : Option Nat :=
      if currentBlockIdx = 0 then none
      else some (s.blockErrorCounts.getD currentBlockIdx 0 + (if isCorrect then 0 else 1))
    let currentInitialDiscovery : Option Nat :=
      if currentBlockIdx = 0 then s.initialRuleDiscoveryLatency else none
    let adaptationLatency2 := currentAdaptationLatency.getD s.adaptationLatency
    let isPerseverative : Bool :=
      if isCorrect then false
      else if s.trialData.isEmpty then false
      else
        let previousRule := (s.trialData.getLast?).map (fun r => r.rule)
        if some t.rule ≠ previousRule then
          decide (1 ≤ ((s.trialData.filter
            (fun r => r.rule_block_number = ruleBlockNumber)).countP
              (fun r => !r.correct)))
        else false
    let entry : MatchRec := {
      trial_number := s.idx + 1,
      user_choice := cardIndex,
      correct := isCorrect,
      rule := t.rule,
      response_time := rt,
      perseverative := isPerseverative,
      adaptation_latency := currentAdaptationLatency,
      initial_rule_discovery_latency := currentInitialDiscovery,
      rule_switch := isRuleSwitch,
      consecutive_errors := newConsecutiveErrors,
      trial_in_block := trialInBlock,
      rule_block_number := ruleBlockNumber }
    let extended2 := s.extendedBlockTriggered || decide (4 ≤ newConsecutiveErrors)
    let guided2 := s.guidedModeTriggered ||
      (decide (3 ≤ newConsecutiveErrors) ||
        (match currentAdaptationLatency with
          | some v => decide (4 ≤ v)
          | none => false))
    let ruleTraining2 := s.ruleTrainingTriggered ||
      (decide (5 ≤ newConsecutiveErrors) ||
        (match currentAdaptationLatency with
          | some v => decide (6 ≤ v)
          | none => false))
    { s with
      idx := s.idx + 1,
      trialData := s.trialData ++ [entry],
      consecutiveErrors := newConsecutiveErrors,
      blockErrorCounts := blockErrorCounts2,
      firstCorrectInBlock := firstCorrect2,
      initialRuleDiscoveryLatency := initialLatency2,
      currentBlockIndex := currentBlockIdx,
      adaptationLatency := adaptationLatency2,
      guidedModeTriggered := guided2,
      ruleTrainingTriggered := ruleTraining2,
      extendedBlockTriggered := extended2 }

/-- A full or partial match session: fold the responses (chosen index and
response time, one per trial) from the initial component state. -/
def runMatch (trials : List FlexSortTrial) (responses : List (Nat × ℚ)) : MatchState :=
  responses.foldl (fun s r => handleCardSelect trials s r.1 r.2) {}

/-- The summary produced by the match variant (`AssessmentData` as filled
in by `completeAssessment`; `completed_at` omitted). -/
structure MatchSummary where
  trials : List MatchRec
  cognitive_flexibility_score : ℤ
  shifts_achieved : Nat
  perseverative_errors : Nat
  adaptation_latency : Nat
  avg_response_time : ℚ
  guided_mode_triggered : Bool
  rule_training_triggered : Bool
  deriving DecidableEq, Repr

/-- The shift count of `completeAssessment`: for each of the five
transitions into blocks 2‥6 (`blocks[i].start = 6*i`), the first three
trials of the destination block (`slice(blockStart, blockStart + 3)`) must
contain at least two correct responses. -/
def shiftsAchievedOf (trialData : List MatchRec) : Nat :=
  (List.range 5).countP
    (fun k => 2 ≤ ((trialData.drop (6 * (k + 1))).take 3).countP (fun r => r.correct))

/-- `completeAssessment` of the match variant, as a pure function of the
state fields it reads (it runs on a fresh render, so all its reads are
up to date). -/
def completeAssessment (trialData : List MatchRec) (adaptationLatency : Nat)
    (guidedModeTriggered ruleTrainingTriggered : Bool) : MatchSummary :=
  let totalTrials := trialData.length
  let correctTrials := trialData.countP (fun r => r.correct)
  let perseverativeErrors := trialData.countP (fun r => r.perseverative)
  let avgResponseTime := (trialData.map (fun r => r.response_time)).sum / (totalTrials : ℚ)
  let shiftsAchieved := shiftsAchievedOf trialData
  let accuracyScore : ℚ := (correctTrials : ℚ) / (totalTrials : ℚ) * 100
  let shiftScore : ℚ := (shiftsAchieved : ℚ) / 5 * 100
  let totalErrors := totalTrials - correctTrials
  let errorControlScore : ℚ := max 0 (100 - (totalErrors : ℚ) / (totalTrials : ℚ) * 100)
  let flexibilityScore : ℚ :=
    if correctTrials = totalTrials then
      max 90 (accuracyScore * 0.6 + shiftScore * 0.3 + errorControlScore * 0.1)
    else
      accuracyScore * 0.4 + shiftScore * 0.4 + errorControlScore * 0.2
  { trials := trialData,
    cognitive_flexibility_score := jsRound flexibilityScore,
    shifts_achieved := shiftsAchieved,
    perseverative_errors := perseverativeErrors,
    adaptation_latency := adaptationLatency,
    avg_response_time := avgResponseTime,
    guided_mode_triggered := guidedModeTriggered,
    rule_training_triggered := ruleTrainingTriggered }

/-- `completeAssessment` applied to a session's final state. -/
def completeAssessmentM (s : MatchState) : MatchSummary :=
  completeAssessment s.trialData s.adaptationLatency
    s.guidedModeTriggered s.ruleTrainingTriggered

/-! ## Change-detection variant: trials, staircase, state machine, scoring -/

/-- One trial of the change-detection variant (`FlickerTrial`). -/
structure FlickerTrial where
  base : CardData
  altered : CardData
  hasChange : Bool
  blockIndex : Nat
  deriving DecidableEq, Repr, Inhabited

/-- A change trial of `generateTrials`: a random base card and an altered
copy differing in one randomly chosen dimension, the new value drawn from
the three remaining values of that dimension. -/
def genChangeTrial (block : Nat) (g : Rng) : FlickerTrial × Rng :=
  let b := generateCard g
  let d := Rng.next b.2
  let dim := d.1 % 3
  if dim = 0 then
    let v := Rng.pick (colorsList.filter (fun c => c ≠ b.1.color)) d.2
    ({ base := b.1, altered := { b.1 with color := v.1 },
       hasChange := true, blockIndex := block }, v.2)
  else if dim = 1 then
    let v := Rng.pick (shapesList.filter (fun sh => sh ≠ b.1.shape)) d.2
    ({ base := b.1, altered := { b.1 with shape := v.1 },
       hasChange := true, blockIndex := block }, v.2)
  else
    let v := Rng.pick (numbersList.filter (fun n => n ≠ b.1.number)) d.2
    ({ base := b.1, altered := { b.1 with number := v.1 },
       hasChange := true, blockIndex := block }, v.2)

/-- A no-change trial of `generateTrials`: the altered card is a copy of
the base. -/
def genNoChangeTrial (block : Nat) (g : Rng) : FlickerTrial × Rng :=
  let b := generateCard g
  ({ base := b.1, altered := b.1, hasChange := false, blockIndex := block }, b.2)

/-- `count` change trials of one block. -/
def genChangeTrials (block : Nat) : Nat → Rng → List FlickerTrial × Rng
  | 0, g => ([], g)
  | count + 1, g =>
    let t := genChangeTrial block g
    let rest := genChangeTrials block count t.2
    (t.1 :: rest.1, rest.2)

/-- `count` no-change trials of one block. -/
def genNoChangeTrials (block : Nat) : Nat → Rng → List FlickerTrial × Rng
  | 0, g => ([], g)
  | count + 1, g =>
    let t := genNoChangeTrial block g
    let rest := genNoChangeTrials block count t.2
    (t.1 :: rest.1, rest.2)

/-- One block of `generateTrials`: three change trials, three no-change
trials, then an in-block shuffle. -/
def genFlickerBlock (block : Nat) (g : Rng) : List FlickerTrial × Rng :=
  let cs := genChangeTrials block 3 g
  let ns := genNoChangeTrials block 3 cs.2
  shuffle (cs.1 ++ ns.1) ns.2

/-- The block loop of `generateTrials`. -/
def genFlickerBlocks : List Nat → Rng → List FlickerTrial × Rng
  | [], g => ([], g)
  | b :: bs, g =>
    let blk := genFlickerBlock b g
    let rest := genFlickerBlocks bs blk.2
    (blk.1 ++ rest.1, rest.2)

/-- `generateTrials()` of the change-detection variant: six blocks of six
trials. -/
def generateTrials (g : Rng) : List FlickerTrial × Rng :=
  genFlickerBlocks (List.range 6) g

/-- `const minDisplayMs = 200`. -/
def minDisplayMs : ℤ := 200

/-- `const maxDisplayMs = 1000`. -/
def maxDisplayMs : ℤ := 1000

/-- `const stepMs = 100`. -/
def stepMs : ℤ := 100

/-- A participant response. -/
inductive Choice | change | nochange
  deriving DecidableEq, Repr, Inhabited

/-- One entry of the change-detection `TrialData` history.  Constant
fields of the source (`rule: 'flicker'`, `adaptation_latency: 0`,
`trial_type: 'core'`, `initial_rule_discovery_latency: 0`,
`rule_switch: false`) and the wall-clock timestamp are omitted. -/
structure FlickerRec where
  trial_number : Nat
  user_choice : Choice
  correct : Bool
  response_time : ℚ
  perseverative : Bool
  consecutive_errors : Nat
  trial_in_block : Nat
  rule_block_number : Nat
  change_occurred : Bool
  display_ms : ℤ
  deriving DecidableEq, Repr, Inhabited

/-- The summary produced by `finishAssessment` (`AssessmentData` with the
flicker-specific `attention_score`; `completed_at` omitted). -/
structure FlickerSummary where
  trials : List FlickerRec
  cognitive_flexibility_score : ℤ
  shifts_achieved : Nat
  perseverative_errors : Nat
  adaptation_latency : Nat
  avg_response_time : ℚ
  guided_mode_triggered : Bool
  rule_training_triggered : Bool
  attention_score : ℤ
  deriving DecidableEq, Repr

/-- `allTrialData.filter(t => t.change_occurred).length`. -/
def changeTrialsOf (data : List FlickerRec) : Nat :=
  data.countP (fun t => t.change_occurred)

/-- `allTrialData.filter(t => !t.change_occurred).length`. -/
def noChangeTrialsOf (data : List FlickerRec) : Nat :=
  data.countP (fun t => !t.change_occurred)

/-- `changeTrials > 0 ? hits / changeTrials : 0`. -/
def hitRateOf (data : List FlickerRec) (hits : Nat) : ℚ :=
  if 0 < changeTrialsOf data then (hits : ℚ) / (changeTrialsOf data : ℚ) else 0

/-- `noChangeTrials > 0 ? falseAlarms / noChangeTrials : 0`. -/
def falseAlarmRateOf (data : List FlickerRec) (falseAlarms : Nat) : ℚ :=
  if 0 < noChangeTrialsOf data then (falseAlarms : ℚ) / (noChangeTrialsOf data : ℚ) else 0

/-- `Math.round(((maxDisplayMs - displayMs) / (maxDisplayMs - minDisplayMs)) * 100)`. -/
def thresholdScoreOf (displayMs : ℤ) : ℤ :=
  jsRound (((maxDisplayMs - displayMs : ℤ) : ℚ) / ((maxDisplayMs - minDisplayMs : ℤ) : ℚ) * 100)

/-- `finishAssessment(allTrialData)`, as a pure function of the state
values its defining render closed over (`displayMs`, `hits`,
`falseAlarms`, `guidedModeTriggered`). -/
def finishAssessment (allTrialData : List FlickerRec) (displayMs : ℤ)
    (hits falseAlarms : Nat) (guidedModeTriggered : Bool) : FlickerSummary :=
  let totalTrials := allTrialData.length
  let avgRT := (allTrialData.map (fun t => t.response_time)).sum / (totalTrials : ℚ)
  let thresholdScore := thresholdScoreOf displayMs
  let hitRate := hitRateOf allTrialData hits
  let falseAlarmRate := falseAlarmRateOf allTrialData falseAlarms
  let attentionScoreRaw : ℚ :=
    0.5 * ((thresholdScore : ℚ) / 100) + 0.3 * hitRate + 0.2 * (1 - falseAlarmRate)
  let attentionScore := jsRound (attentionScoreRaw * 100)
  { trials := allTrialData,
    cognitive_flexibility_score := thresholdScore,
    shifts_achieved := hits,
    perseverative_errors := falseAlarms,
    adaptation_latency := 0,
    avg_response_time := avgRT,
    guided_mode_triggered := guidedModeTriggered,
    rule_training_triggered := false,
    attention_score := attentionScore }

/-- `const isCorrect = (choice === 'change' && currentTrial.hasChange) ||
(choice === 'nochange' && !currentTrial.hasChange)`. -/
def isCorrectResponse (t : FlickerTrial) (choice : Choice) : Bool :=
  ((choice == Choice.change) && t.hasChange) ||
    ((choice == Choice.nochange) && !t.hasChange)

/-- `const isFalseAlarm = choice === 'change' && !currentTrial.hasChange`. -/
def isFalseAlarmResponse (t : FlickerTrial) (choice : Choice) : Bool :=
  (choice == Choice.change) && !t.hasChange

/-- The component state of `FocusFlickerTask` that the claims touch.
`result` holds the summary once `finishAssessment` has been invoked. -/
structure FlickerState where
  trials : List FlickerTrial
  idx : Nat := 0
  displayMs : ℤ := 800
  consecutiveErrors : Nat := 0
  guidedModeTriggered : Bool := false
  inGuidedMode : Bool := false
  hits : Nat := 0
  falseAlarms : Nat := 0
  responseTimes : List ℚ := []
  trialDataAccum : List FlickerRec := []
  result : Option FlickerSummary := none
  deriving DecidableEq, Repr

/-- One response of the change-detection variant: `handleResponse(choice)`
together with the `setTimeout` continuation it schedules (nothing else can
run in between, the response buttons are hidden until the timeout fires).
All reads refer to the snapshot `s` that the render closed over.  In
particular, when the last trial completes, the scheduled call
`finishAssessment([...trialDataAccum, trialData])` runs the
`finishAssessment` closure of the same render, so it reads the snapshot
values `s.displayMs`, `s.hits`, `s.falseAlarms` and
`s.guidedModeTriggered` — not the values just enqueued by this response's
`setDisplayMs`/`setHits`/`setFalseAlarms` updates.  (The source works
around this staleness only for the trial history, by passing
`[...trialDataAccum, trialData]` explicitly.) -/
def handleResponse (s : FlickerState) (choice : Choice) (rt : ℚ) : FlickerState :=
  if s.result.isSome || s.inGuidedMode then s
  else
    let t := s.trials.getD s.idx default
    let isCorrect : Bool := isCorrectResponse t choice
    let isFalseAlarm : Bool := isFalseAlarmResponse t choice
    let responseTimes2 := s.responseTimes ++ [rt]
    let hits2 := if t.hasChange && isCorrect then s.hits + 1 else s.hits
    let falseAlarms2 := if isFalseAlarm then s.falseAlarms + 1 else s.falseAlarms
    let displayMs2 :=
      if isCorrect then max minDisplayMs (s.displayMs - stepMs)
      else min maxDisplayMs (s.displayMs + stepMs)
    let guidedImmediate := s.guidedModeTriggered ||
      (!isCorrect && decide (3 ≤ s.consecutiveErrors + 1))
    let nextConsecutiveErrors := if isCorrect then 0 else s.consecutiveErrors + 1
    let entry : FlickerRec := {
      trial_number := s.idx + 1,
      user_choice := choice,
      correct := isCorrect,
      response_time := rt,
      perseverative := isFalseAlarm,
      consecutive_errors := nextConsecutiveErrors,
      trial_in_block := s.idx % 6 + 1,
      rule_block_number := t.blockIndex + 1,
      change_occurred := t.hasChange,
      display_ms := s.displayMs }
    let accum2 := s.trialDataAccum ++ [entry]
    let triggerGuided := decide (3 ≤ nextConsecutiveErrors) && !s.guidedModeTriggered
    if triggerGuided then
      { s with
        hits := hits2,
        falseAlarms := falseAlarms2,
        responseTimes := responseTimes2,
        trialDataAccum := accum2,
        guidedModeTriggered := true,
        consecutiveErrors := 0,
        displayMs := maxDisplayMs,
        inGuidedMode := true }
    else if s.trials.length ≤ s.idx + 1 then
      { s with
        hits := hits2,
        falseAlarms := falseAlarms2,
        responseTimes := responseTimes2,
        trialDataAccum := accum2,
        guidedModeTriggered := guidedImmediate,
        consecutiveErrors := nextConsecutiveErrors,
        displayMs := displayMs2,
        result := some (finishAssessment accum2 s.displayMs s.hits s.falseAlarms
          s.guidedModeTriggered) }
    else
      { s with
        hits := hits2,
        falseAlarms := falseAlarms2,
        responseTimes := responseTimes2,
        trialDataAccum := accum2,
        guidedModeTriggered := guidedImmediate,
        consecutiveErrors := nextConsecutiveErrors,
        displayMs := displayMs2,
        idx := s.idx + 1 }

/-- The Continue click of the guided-mode overlay
(`handleGuidedContinue`).  This runs on a fresh render, so the
`finishAssessment` it may call reads the current state values (after the
guided reset, `displayMs = maxDisplayMs`), and the history passed is
`trialDataAccum` as is. -/
def handleGuidedContinue (s : FlickerState) : FlickerState :=
  if !s.inGuidedMode || s.result.isSome then s
  else if s.trials.length ≤ s.idx + 1 then
    { s with
      inGuidedMode := false,
      result := some (finishAssessment s.trialDataAccum s.displayMs s.hits
        s.falseAlarms s.guidedModeTriggered) }
  else { s with inGuidedMode := false, idx := s.idx + 1 }

/-- A user event of the change-detection session. -/
inductive FlickerEvent
  | respond (choice : Choice) (rt : ℚ)
  | guidedContinue
  deriving DecidableEq, Repr

/-- One event transition. -/
def flickerStep (s : FlickerState) : FlickerEvent → FlickerState
  | .respond choice rt => handleResponse s choice rt
  | .guidedContinue => handleGuidedContinue s

/-- The initial component state over a given trial list. -/
def initFlicker (trials : List FlickerTrial) : FlickerState :=
  { trials := trials }

/-- A change-detection session: generate the trials from the stream and
fold the user events from the initial state. -/
def runFocusFlicker (g : Rng) (events : List FlickerEvent) : FlickerState :=
  events.foldl flickerStep (initFlicker (generateTrials g).1)

/-! ## Claim-side formulas and concrete sessions used as evidence -/

/-- The staircase update as the specification states it: a fixed step down
on correct, up on incorrect, clamped to `[minDisplayMs, maxDisplayMs]` on
both sides. -/
def specStaircase (displayMs : ℤ) (isCorrect : Bool) : ℤ :=
  min maxDisplayMs (max minDisplayMs
    (if isCorrect then displayMs - stepMs else displayMs + stepMs))

/-- The deliberately incorrect response to a flicker trial. -/
def wrongChoiceFor (t : FlickerTrial) : Choice :=
  if t.hasChange then Choice.nochange else Choice.change

/-- Under the all-zero stream, trial `i` of the change-detection session
has a change exactly when `i % 6 < 3`; this chooses the correct response
for trial `i`, made deliberately wrong on trials 31, 32, 34 and 35
(1-based) so that the staircase sits at 500 ms when the last trial is
shown and at 400 ms after its final correct adjustment. -/
def c3choice (i : Nat) : Choice :=
  if i = 30 || i = 31 then Choice.nochange
  else if i = 33 || i = 34 then Choice.change
  else if i % 6 < 3 then Choice.change else Choice.nochange

/-- A complete 36-response session on the all-zero stream exercising the
final-trial staircase staleness. -/
def c3events : List FlickerEvent :=
  (List.range 36).map (fun i => FlickerEvent.respond (c3choice i) 0)

/-- Response choice for the rule-training counterexample session: wrong on
trials 1‥8 (1-based), correct afterwards, against the all-zero stream's
change pattern `i % 6 < 3`. -/
def c6choice (i : Nat) : Choice :=
  if i < 8 then (if i % 6 < 3 then Choice.nochange else Choice.change)
  else (if i % 6 < 3 then Choice.change else Choice.nochange)

/-- A complete session on the all-zero stream: three errors (guided mode
triggers and resets the error counter), the guided-overlay Continue click,
five further consecutive errors (reaching the higher threshold), then
correct responses to the end. -/
def c6events : List FlickerEvent :=
  ((List.range 3).map (fun i => FlickerEvent.respond (c6choice i) 0))
    ++ [FlickerEvent.guidedContinue]
    ++ ((List.range 33).map (fun k => FlickerEvent.respond (c6choice (k + 3)) 0))

/-! ## Helper lemmas -/

theorem perm_getD_cons_eraseIdx (xs : List α) (j : Nat) (d : α) (h : j < xs.length) :
    xs.Perm (xs.getD j d :: xs.eraseIdx j) := by
  induction xs generalizing j with
  | nil => simp at h
  | cons x t ih =>
    cases j with
    | zero => simp
    | succ j =>
      have hj : j < t.length := by simpa using h
      have ht := ih j hj
      simp only [List.getD_cons_succ, List.eraseIdx_cons_succ]
      exact List.Perm.trans (List.Perm.cons x ht)
        (List.Perm.swap (t.getD j d) x (t.eraseIdx j))

theorem shuffleGo_perm :
    ∀ (fuel : Nat) (xs : List α) (g : Rng), xs.length = fuel →
      (shuffleGo fuel xs g).1.Perm xs := by
  intro fuel
  induction fuel with
  | zero =>
    intro xs g h
    have : xs = [] := List.length_eq_zero.mp h
    subst this
    exact List.Perm.refl _
  | succ fuel ih =>
    intro xs g h
    match xs with
    | x :: rest =>
      simp only [shuffleGo]
      have hj : g.next.1 % (rest.length + 1) < (x :: rest).length := by
        simp only [List.length_cons]
        exact Nat.mod_lt _ (Nat.succ_pos _)
      have hlen : ((x :: rest).eraseIdx (g.next.1 % (rest.length + 1))).length = fuel := by
        simp only [List.length_eraseIdx, hj, if_true]
        simp only [List.length_cons] at h ⊢
        omega
      have hrest := ih ((x :: rest).eraseIdx (g.next.1 % (rest.length + 1))) g.next.2 hlen
      refine List.Perm.trans (List.Perm.cons _ hrest) ?_
      exact (perm_getD_cons_eraseIdx (x :: rest) _ _ hj).symm

theorem shuffle_perm (xs : List α) (g : Rng) : (shuffle xs g).1.Perm xs :=
  shuffleGo_perm xs.length xs g rfl

theorem filter_ne_pos [DecidableEq α] (xs : List α) (x : α) (h2 : 2 ≤ xs.length)
    (hnd : xs.Nodup) : 0 < (xs.filter (fun y => y ≠ x)).length := by
  by_contra hcon
  have hnil : xs.filter (fun y => y ≠ x) = [] :=
    List.length_eq_zero.mp (by omega)
  have hall := List.filter_eq_nil_iff.mp hnil
  match xs, h2, hnd, hall with
  | a :: b :: t, _, hnd, hall =>
    have ha : a = x := by
      have := hall a (by simp)
      simpa using this
    have hb : b = x := by
      have := hall b (by simp)
      simpa using this
    have : a ≠ b := by
      have := (List.nodup_cons.mp hnd).1
      intro hab
      exact this (hab ▸ List.mem_cons_self b t)
    exact this (ha.trans hb.symm)

theorem pickOther_ne [DecidableEq α] [Inhabited α] (xs : List α) (x : α) (g : Rng)
    (h : 0 < (xs.filter (fun y => y ≠ x)).length) : (Rng.pickOther xs x g).1 ≠ x := by
  unfold Rng.pickOther Rng.pick
  have hj : g.next.1 % (xs.filter (fun y => y ≠ x)).length <
      (xs.filter (fun y => y ≠ x)).length := Nat.mod_lt _ h
  have hmem : (xs.filter (fun y => y ≠ x)).getD
      (g.next.1 % (xs.filter (fun y => y ≠ x)).length) default
      ∈ xs.filter (fun y => y ≠ x) := by
    rw [List.getD_eq_getElem?_getD, List.getElem?_eq_getElem hj]
    exact List.getElem_mem hj
  have := (List.mem_filter.mp hmem).2
  simpa using this

theorem colors_filter_pos (x : Color) : 0 < (colorsList.filter (fun y => y ≠ x)).length := by
  cases x <;> decide

theorem shapes_filter_pos (x : Shape) : 0 < (shapesList.filter (fun y => y ≠ x)).length := by
  cases x <;> decide

theorem numbers_filter_pos (x : Nat) : 0 < (numbersList.filter (fun y => y ≠ x)).length :=
  filter_ne_pos _ _ (by decide) (by decide)

/-! ## C1: match-variant trial generation -/

theorem genCorrectOption_matches (rule : Rule) (target : CardData) (g : Rng) :
    matchesOnRule rule (genCorrectOption rule target g).1 target = true := by
  cases rule <;> simp [genCorrectOption, matchesOnRule]

theorem not_match_of_not_share (rule : Rule) (c t : CardData)
    (h : sharesDimension c t = false) : matchesOnRule rule c t = false := by
  cases rule <;> simp_all [sharesDimension, matchesOnRule]

theorem distractorLoop_valid (target : CardData) (options : List CardData) :
    ∀ (fuel attempts : Nat) (g : Rng), 50 ≤ attempts + fuel →
      (distractorLoop target options attempts fuel g).2.1 < 50 →
      badDistractor target options (distractorLoop target options attempts fuel g).1 = false := by
  intro fuel
  induction fuel with
  | zero =>
    intro attempts g hinv hlt
    simp only [distractorLoop] at hlt
    omega
  | succ fuel ih =>
    intro attempts g hinv hlt
    simp only [distractorLoop] at hlt ⊢
    by_cases hb :
        (attempts + 1 < 50 && badDistractor target options (generateCard g).1) = true
    · rw [if_pos hb] at hlt ⊢
      exact ih (attempts + 1) (generateCard g).2 (by omega) hlt
    · rw [if_neg hb] at hlt ⊢
      simp only at hlt ⊢
      rcases Bool.eq_false_or_eq_true (badDistractor target options (generateCard g).1)
        with htt | hf
      · exfalso
        apply hb
        simp only [htt, Bool.and_true, decide_eq_true_eq]
        exact hlt
      · exact hf

theorem genDistractor_lt50_not_share (rule : Rule) (target : CardData)
    (options : List CardData) (g : Rng)
    (h : (genDistractor rule target options g).2.1 < 50) :
    sharesDimension (genDistractor rule target options g).1 target = false := by
  simp only [genDistractor] at h ⊢
  by_cases hf : 50 ≤ (distractorLoop target options 0 50 g).2.1
  · rw [if_pos hf] at h ⊢
    simp only at h
    omega
  · rw [if_neg hf] at h ⊢
    have hb := distractorLoop_valid target options 50 0 g (by omega) h
    simp only [badDistractor, Bool.or_eq_false_iff] at hb
    exact hb.1

theorem fallbackDistractor_not_match (rule : Rule) (target : CardData) (g : Rng) :
    matchesOnRule rule (fallbackDistractor rule target g).1 target = false := by
  cases rule
  case color =>
    simp only [fallbackDistractor]
    by_cases hc : (generateCard g).1.color = target.color
    · rw [if_pos hc]
      have := pickOther_ne colorsList target.color (generateCard g).2 (colors_filter_pos _)
      simp [matchesOnRule, this]
    · rw [if_neg hc]
      simp [matchesOnRule, hc]
  case shape =>
    simp only [fallbackDistractor]
    by_cases hc : (generateCard g).1.shape = target.shape
    · rw [if_pos hc]
      have := pickOther_ne shapesList target.shape (generateCard g).2 (shapes_filter_pos _)
      simp [matchesOnRule, this]
    · rw [if_neg hc]
      simp [matchesOnRule, hc]
  case number =>
    simp only [fallbackDistractor]
    by_cases hc : (generateCard g).1.number = target.number
    · rw [if_pos hc]
      have := pickOther_ne numbersList target.number (generateCard g).2 (numbers_filter_pos _)
      simp [matchesOnRule, this]
    · rw [if_neg hc]
      simp [matchesOnRule, hc]

theorem genDistractor_not_match (rule : Rule) (target : CardData)
    (options : List CardData) (g : Rng) :
    matchesOnRule rule (genDistractor rule target options g).1 target = false := by
  by_cases hf : 50 ≤ (distractorLoop target options 0 50 g).2.1
  · simp only [genDistractor, if_pos hf]
    exact fallbackDistractor_not_match rule target _
  · have h : (genDistractor rule target options g).2.1 < 50 := by
      simp only [genDistractor, if_neg hf]
      omega
    exact not_match_of_not_share rule _ _ (genDistractor_lt50_not_share rule target options g h)

theorem countP_shuffled_options (rule : Rule) (target co d1 d2 : CardData) (g : Rng)
    (hco : matchesOnRule rule co target = true)
    (hd1 : matchesOnRule rule d1 target = false)
    (hd2 : matchesOnRule rule d2 target = false) :
    ((shuffle [co, d1, d2] g).1.countP (fun opt => matchesOnRule rule opt target)) = 1 := by
  rw [(shuffle_perm _ _).countP_eq]
  simp [List.countP_cons, hco, hd1, hd2]

/-- C1 (amended): for every rule and random stream, the options list of
`generateTrial` contains exactly one option matching the target on the
ruled dimension.  A distractor produced without exhausting the attempt
budget (`attempts < 50`) shares no dimension with the target; the claim's
stronger statement that this also holds for fallback distractors
(`attempts >= 50`) is false — see the counterexample. -/
theorem c1_generateTrial_options (rule : Rule) (blockIndex : Nat) (g : Rng) :
    ((generateTrial rule blockIndex g).1.options.countP
      (fun opt => matchesOnRule rule opt (generateTrial rule blockIndex g).1.target)) = 1
    ∧ ((mkTrialParts rule g).attempts1 < 50 →
        sharesDimension (mkTrialParts rule g).d1 (mkTrialParts rule g).target = false)
    ∧ ((mkTrialParts rule g).attempts2 < 50 →
        sharesDimension (mkTrialParts rule g).d2 (mkTrialParts rule g).target = false) := by
  refine ⟨?_, ?_, ?_⟩
  · simp only [generateTrial, mkTrialParts]
    exact countP_shuffled_options rule _ _ _ _ _
      (genCorrectOption_matches rule _ _)
      (genDistractor_not_match rule _ _ _)
      (genDistractor_not_match rule _ _ _)
  · simp only [mkTrialParts]
    intro h
    exact genDistractor_lt50_not_share rule _ _ _ h
  · simp only [mkTrialParts]
    intro h
    exact genDistractor_lt50_not_share rule _ _ _ h

/-- C1 counterexample: on the all-zero stream both distractors take the
fallback path, and both share a dimension (here the shape and the count)
with the target even though neither matches the ruled dimension: the claim
"the other two options share zero dimensions with the target" fails on the
fallback path. -/
theorem c1_fallback_counterexample :
    ((generateTrial Rule.color 0 []).1.options.countP (fun opt =>
      !matchesOnRule Rule.color opt (generateTrial Rule.color 0 []).1.target
        && sharesDimension opt (generateTrial Rule.color 0 []).1.target)) = 2
    ∧ 50 ≤ (mkTrialParts Rule.color []).attempts1 := by decide

/-- Witness for `c1_generateTrial_options`: a stream on which the first
distractor is accepted on the first attempt, so the rejection-sampling
clause applies. -/
theorem c1_generateTrial_options_witness :
    (mkTrialParts Rule.color [0, 0, 0, 0, 0, 1, 1, 1, 2, 2, 2]).attempts1 < 50
    ∧ sharesDimension (mkTrialParts Rule.color [0, 0, 0, 0, 0, 1, 1, 1, 2, 2, 2]).d1
        (mkTrialParts Rule.color [0, 0, 0, 0, 0, 1, 1, 1, 2, 2, 2]).target = false :=
  ⟨by decide,
    (c1_generateTrial_options Rule.color 0 [0, 0, 0, 0, 0, 1, 1, 1, 2, 2, 2]).2.1 (by decide)⟩

/-! ## C10: structure of the change-detection session -/

theorem genChangeTrial_fields (block : Nat) (g : Rng) :
    (genChangeTrial block g).1.hasChange = true
    ∧ (genChangeTrial block g).1.blockIndex = block := by
  simp only [genChangeTrial]
  split
  · exact ⟨rfl, rfl⟩
  · split
    · exact ⟨rfl, rfl⟩
    · exact ⟨rfl, rfl⟩

theorem genNoChangeTrial_fields (block : Nat) (g : Rng) :
    (genNoChangeTrial block g).1.hasChange = false
    ∧ (genNoChangeTrial block g).1.blockIndex = block :=
  ⟨rfl, rfl⟩

theorem genChangeTrials_spec (block : Nat) :
    ∀ (n : Nat) (g : Rng), (genChangeTrials block n g).1.length = n
      ∧ ∀ t ∈ (genChangeTrials block n g).1, t.hasChange = true ∧ t.blockIndex = block := by
  intro n
  induction n with
  | zero => intro g; exact ⟨rfl, by intro t ht; simp [genChangeTrials] at ht⟩
  | succ n ih =>
    intro g
    refine ⟨?_, ?_⟩
    · simp only [genChangeTrials, List.length_cons]
      rw [(ih _).1]
    · intro t ht
      simp only [genChangeTrials, List.mem_cons] at ht
      rcases ht with rfl | ht
      · exact genChangeTrial_fields block g
      · exact (ih _).2 t ht

theorem genNoChangeTrials_spec (block : Nat) :
    ∀ (n : Nat) (g : Rng), (genNoChangeTrials block n g).1.length = n
      ∧ ∀ t ∈ (genNoChangeTrials block n g).1, t.hasChange = false ∧ t.blockIndex = block := by
  intro n
  induction n with
  | zero => intro g; exact ⟨rfl, by intro t ht; simp [genNoChangeTrials] at ht⟩
  | succ n ih =>
    intro g
    refine ⟨?_, ?_⟩
    · simp only [genNoChangeTrials, List.length_cons]
      rw [(ih _).1]
    · intro t ht
      simp only [genNoChangeTrials, List.mem_cons] at ht
      rcases ht with rfl | ht
      · exact genNoChangeTrial_fields block g
      · exact (ih _).2 t ht

theorem genFlickerBlock_spec (block : Nat) (g : Rng) :
    (genFlickerBlock block g).1.length = 6
    ∧ (genFlickerBlock block g).1.countP (fun t => t.hasChange) = 3
    ∧ (genFlickerBlock block g).1.countP (fun t => !t.hasChange) = 3
    ∧ ∀ t ∈ (genFlickerBlock block g).1, t.blockIndex = block := by
  unfold genFlickerBlock
  have hcs := genChangeTrials_spec block 3 g
  have hns := genNoChangeTrials_spec block 3 (genChangeTrials block 3 g).2
  have hperm := shuffle_perm
    ((genChangeTrials block 3 g).1 ++ (genNoChangeTrials block 3 (genChangeTrials block 3 g).2).1)
    (genNoChangeTrials block 3 (genChangeTrials block 3 g).2).2
  refine ⟨?_, ?_, ?_, ?_⟩
  · rw [hperm.length_eq, List.length_append, hcs.1, hns.1]
  · rw [hperm.countP_eq, List.countP_append]
    have h1 : (genChangeTrials block 3 g).1.countP (fun t => t.hasChange) = 3 := by
      rw [show (3 : Nat) = (genChangeTrials block 3 g).1.length from hcs.1.symm]
      exact List.countP_eq_length.mpr (fun t ht => by simp [(hcs.2 t ht).1])
    have h2 : (genNoChangeTrials block 3 (genChangeTrials block 3 g).2).1.countP
        (fun t => t.hasChange) = 0 :=
      List.countP_eq_zero.mpr (fun t ht => by simp [(hns.2 t ht).1])
    omega
  · rw [hperm.countP_eq, List.countP_append]
    have h1 : (genChangeTrials block 3 g).1.countP (fun t => !t.hasChange) = 0 :=
      List.countP_eq_zero.mpr (fun t ht => by simp [(hcs.2 t ht).1])
    have h2 : (genNoChangeTrials block 3 (genChangeTrials block 3 g).2).1.countP
        (fun t => !t.hasChange) = 3 := by
      rw [show (3 : Nat) = (genNoChangeTrials block 3 (genChangeTrials block 3 g).2).1.length
        from hns.1.symm]
      exact List.countP_eq_length.mpr (fun t ht => by simp [(hns.2 t ht).1])
    omega
  · intro t ht
    rw [hperm.mem_iff, List.mem_append] at ht
    rcases ht with ht | ht
    · exact (hcs.2 t ht).2
    · exact (hns.2 t ht).2

theorem genFlickerBlocks_length :
    ∀ (bs : List Nat) (g : Rng), (genFlickerBlocks bs g).1.length = 6 * bs.length := by
  intro bs
  induction bs with
  | nil => intro g; rfl
  | cons b0 bs ih =>
    intro g
    simp only [genFlickerBlocks, List.length_append, List.length_cons]
    rw [(genFlickerBlock_spec b0 g).1, ih]
    ring

theorem genFlickerBlocks_seg :
    ∀ (bs : List Nat) (g : Rng) (b : Nat), b < bs.length →
      ((((genFlickerBlocks bs g).1.drop (6 * b)).take 6).length = 6
        ∧ (((genFlickerBlocks bs g).1.drop (6 * b)).take 6).countP (fun t => t.hasChange) = 3
        ∧ (((genFlickerBlocks bs g).1.drop (6 * b)).take 6).countP (fun t => !t.hasChange) = 3
        ∧ ∀ t ∈ ((genFlickerBlocks bs g).1.drop (6 * b)).take 6,
            t.blockIndex = bs.getD b 0) := by
  intro bs
  induction bs with
  | nil => intro g b hb; simp at hb
  | cons b0 bs ih =>
    intro g b hb
    simp only [genFlickerBlocks]
    cases b with
    | zero =>
      have hspec := genFlickerBlock_spec b0 g
      rw [Nat.mul_zero, List.drop_zero, List.take_left' hspec.1]
      exact ⟨hspec.1, hspec.2.1, hspec.2.2.1, by simpa using hspec.2.2.2⟩
    | succ b =>
      have hlen := (genFlickerBlock_spec b0 g).1
      have h6 : 6 * (b + 1) = 6 + 6 * b := by ring
      rw [h6, ← List.drop_drop, List.drop_left' hlen]
      have hb2 : b < bs.length := by simpa using hb
      simpa using ih (genFlickerBlock b0 g).2 b hb2

theorem getD_take_of_lt (l : List α) (d : α) (r k : Nat) (hr : r < k) :
    (l.take k).getD r d = l.getD r d := by
  simp [List.getD_eq_getElem?_getD, List.getElem?_take_of_lt hr]

theorem getD_drop (l : List α) (d : α) (m : Nat) :
    ∀ r, (l.drop m).getD r d = l.getD (m + r) d := by
  induction m generalizing l with
  | zero => intro r; simp
  | succ m ih =>
    intro r
    cases l with
    | nil => simp
    | cons x t =>
      simp only [List.drop_succ_cons]
      rw [ih t r]
      have : m + 1 + r = (m + r) + 1 := by omega
      rw [this]
      rfl

theorem getD_mem_of_lt (l : List α) (d : α) (r : Nat) (hr : r < l.length) :
    l.getD r d ∈ l := by
  rw [List.getD_eq_getElem?_getD, List.getElem?_eq_getElem hr]
  exact List.getElem_mem hr

theorem genFlickerBlocks_countP :
    ∀ (bs : List Nat) (g : Rng),
      (genFlickerBlocks bs g).1.countP (fun t => t.hasChange) = 3 * bs.length
      ∧ (genFlickerBlocks bs g).1.countP (fun t => !t.hasChange) = 3 * bs.length := by
  intro bs
  induction bs with
  | nil => intro g; exact ⟨rfl, rfl⟩
  | cons b0 bs ih =>
    intro g
    have hspec := genFlickerBlock_spec b0 g
    have hrest := ih (genFlickerBlock b0 g).2
    simp only [genFlickerBlocks, List.countP_append, List.length_cons]
    rw [hspec.2.1, hspec.2.2.1, hrest.1, hrest.2]
    omega

/-- C10: every change-detection session built by `generateTrials` has 36
trials in 6 blocks of 6 consecutive trials, each trial's `blockIndex`
equals its position divided by 6, and every 6-trial block holds exactly 3
change and 3 no-change trials, hence 18 of each overall. -/
theorem c10_trials_structure (g : Rng) :
    (generateTrials g).1.length = 36
    ∧ (∀ i, i < 36 → ((generateTrials g).1.getD i default).blockIndex = i / 6)
    ∧ (∀ b, b < 6 →
        ((((generateTrials g).1.drop (6 * b)).take 6).countP (fun t => t.hasChange) = 3
          ∧ (((generateTrials g).1.drop (6 * b)).take 6).countP (fun t => !t.hasChange) = 3))
    ∧ (generateTrials g).1.countP (fun t => t.hasChange) = 18
    ∧ (generateTrials g).1.countP (fun t => !t.hasChange) = 18 := by
  have hlen6 : (List.range 6).length = 6 := List.length_range 6
  refine ⟨?_, ?_, ?_, ?_, ?_⟩
  · rw [generateTrials, genFlickerBlocks_length, hlen6]
  · intro i hi
    simp only [generateTrials]
    have hb : i / 6 < (List.range 6).length := by rw [hlen6]; omega
    have hseg := genFlickerBlocks_seg (List.range 6) g (i / 6) hb
    have hmod : i % 6 < 6 := Nat.mod_lt _ (by omega)
    have heq : (genFlickerBlocks (List.range 6) g).1.getD i default =
        (((genFlickerBlocks (List.range 6) g).1.drop (6 * (i / 6))).take 6).getD
          (i % 6) default := by
      rw [getD_take_of_lt _ _ _ _ hmod, getD_drop]
      congr 1
      omega
    have hmem : (genFlickerBlocks (List.range 6) g).1.getD i default ∈
        ((genFlickerBlocks (List.range 6) g).1.drop (6 * (i / 6))).take 6 := by
      rw [heq]
      exact getD_mem_of_lt _ _ _ (by rw [hseg.1]; omega)
    have := hseg.2.2.2 _ hmem
    rw [this, List.getD_eq_getElem?_getD, List.getElem?_range (by omega : i / 6 < 6)]
    rfl
  · intro b hb
    have hseg := genFlickerBlocks_seg (List.range 6) g b (by rw [hlen6]; omega)
    exact ⟨hseg.2.1, hseg.2.2.1⟩
  · have := (genFlickerBlocks_countP (List.range 6) g).1
    rw [generateTrials, this, hlen6]
  · have := (genFlickerBlocks_countP (List.range 6) g).2
    rw [generateTrials, this, hlen6]

/-- Witness for `c10_trials_structure`: the bounded clauses evaluated at
stream `[]`, trial 8 and block 2. -/
theorem c10_trials_structure_witness :
    (generateTrials []).1.length = 36
    ∧ ((generateTrials []).1.getD 7 default).blockIndex = 7 / 6
    ∧ (((generateTrials []).1.drop (6 * 1)).take 6).countP (fun t => t.hasChange) = 3 :=
  ⟨(c10_trials_structure []).1,
    (c10_trials_structure []).2.1 7 (by decide),
    ((c10_trials_structure []).2.2.1 1 (by decide)).1⟩

/-! ## C4, C2, C7: the adaptive staircase and guided-mode trigger -/

theorem generateTrials_length (g : Rng) : (generateTrials g).1.length = 36 := by
  rw [generateTrials, genFlickerBlocks_length]
  rfl

theorem specStaircase_eq_code (d : ℤ) (c : Bool)
    (h1 : minDisplayMs ≤ d) (h2 : d ≤ maxDisplayMs) :
    specStaircase d c =
      (if c then max minDisplayMs (d - stepMs) else min maxDisplayMs (d + stepMs)) := by
  simp only [minDisplayMs, maxDisplayMs, stepMs] at h1 h2
  cases c
  · simp only [specStaircase, minDisplayMs, maxDisplayMs, stepMs, Bool.false_eq_true,
      if_false]
    rw [max_eq_right (by omega : (200:ℤ) ≤ d + 100)]
  · simp only [specStaircase, minDisplayMs, maxDisplayMs, stepMs, if_true]
    exact min_eq_right (max_le (by omega) (by omega))

theorem handleResponse_displayMs_cases (s : FlickerState) (choice : Choice) (rt : ℚ) :
    (handleResponse s choice rt).displayMs = s.displayMs
    ∨ (handleResponse s choice rt).displayMs = maxDisplayMs
    ∨ (handleResponse s choice rt).displayMs =
        (if isCorrectResponse (s.trials.getD s.idx default) choice
          then max minDisplayMs (s.displayMs - stepMs)
          else min maxDisplayMs (s.displayMs + stepMs)) := by
  simp only [handleResponse]
  repeat' split
  all_goals first
    | exact Or.inl rfl
    | exact Or.inr (Or.inl rfl)
    | exact Or.inr (Or.inr rfl)

theorem handleGuidedContinue_displayMs (s : FlickerState) :
    (handleGuidedContinue s).displayMs = s.displayMs := by
  unfold handleGuidedContinue
  split
  · rfl
  · split <;> rfl

theorem flickerStep_bounds (s : FlickerState) (e : FlickerEvent)
    (h1 : minDisplayMs ≤ s.displayMs) (h2 : s.displayMs ≤ maxDisplayMs) :
    minDisplayMs ≤ (flickerStep s e).displayMs
    ∧ (flickerStep s e).displayMs ≤ maxDisplayMs := by
  cases e with
  | guidedContinue =>
    simp only [flickerStep, handleGuidedContinue_displayMs]
    exact ⟨h1, h2⟩
  | respond choice rt =>
    simp only [flickerStep]
    rcases handleResponse_displayMs_cases s choice rt with h | h | h
    · rw [h]
      exact ⟨h1, h2⟩
    · rw [h]
      simp only [minDisplayMs, maxDisplayMs]
      omega
    · rw [h]
      cases hc : isCorrectResponse (s.trials.getD s.idx default) choice
      · simp only [Bool.false_eq_true, if_false, minDisplayMs, maxDisplayMs, stepMs] at h1 h2 ⊢
        exact ⟨le_min (by omega) (by omega), min_le_left _ _⟩
      · simp only [if_true, minDisplayMs, maxDisplayMs, stepMs] at h1 h2 ⊢
        exact ⟨le_max_left _ _, max_le (by omega) (by omega)⟩

theorem foldl_flickerStep_bounds (events : List FlickerEvent) :
    ∀ (s : FlickerState), minDisplayMs ≤ s.displayMs → s.displayMs ≤ maxDisplayMs →
      minDisplayMs ≤ (events.foldl flickerStep s).displayMs
      ∧ (events.foldl flickerStep s).displayMs ≤ maxDisplayMs := by
  induction events with
  | nil => intro s h1 h2; exact ⟨h1, h2⟩
  | cons e es ih =>
    intro s h1 h2
    have hstep := flickerStep_bounds s e h1 h2
    exact ih (flickerStep s e) hstep.1 hstep.2

/-- C4: the adaptive flicker duration starts at 800 ms and stays within
`[200, 1000]` in every reachable state of a change-detection session —
after every staircase update and after the guided-mode reset to the
maximum alike. -/
theorem c4_displayMs_bounds (g : Rng) (events : List FlickerEvent) :
    (initFlicker (generateTrials g).1).displayMs = 800
    ∧ minDisplayMs ≤ (runFocusFlicker g events).displayMs
    ∧ (runFocusFlicker g events).displayMs ≤ maxDisplayMs := by
  have hini : (initFlicker (generateTrials g).1).displayMs = 800 := rfl
  have h := foldl_flickerStep_bounds events (initFlicker (generateTrials g).1)
    (by rw [hini]; decide) (by rw [hini]; decide)
  exact ⟨hini, h.1, h.2⟩

/-- C2 (amended): a response with the staircase in range updates
`displayMs` to the clamped one-step staircase value, except that a
response that newly triggers guided mode (third consecutive error while
the flag is still unset) instead resets `displayMs` to the maximum. -/
theorem c2_staircase_update (s : FlickerState) (choice : Choice) (rt : ℚ)
    (hres : s.result = none) (hg : s.inGuidedMode = false)
    (h1 : minDisplayMs ≤ s.displayMs) (h2 : s.displayMs ≤ maxDisplayMs) :
    (handleResponse s choice rt).displayMs =
      if ((3 ≤ (if isCorrectResponse (s.trials.getD s.idx default) choice
              then 0 else s.consecutiveErrors + 1))
          ∧ s.guidedModeTriggered = false)
      then maxDisplayMs
      else specStaircase s.displayMs
        (isCorrectResponse (s.trials.getD s.idx default) choice) := by
  have hcode := specStaircase_eq_code s.displayMs
    (isCorrectResponse (s.trials.getD s.idx default) choice) h1 h2
  simp only [handleResponse, hres, hg, Option.isSome_none, Bool.or_self, Bool.false_eq_true,
    if_false]
  cases hc : isCorrectResponse (s.trials.getD s.idx default) choice
  · rw [hc] at hcode
    simp only [Bool.false_eq_true, if_false] at hcode ⊢
    by_cases ht : 3 ≤ s.consecutiveErrors + 1
    · cases hgf : s.guidedModeTriggered
      · simp [ht, hgf, hcode]
      · simp [ht, hgf, hcode]
        split <;> rfl
    · simp [ht, hcode]
      split <;> rfl
  · rw [hc] at hcode
    simp only [if_true] at hcode ⊢
    simp [hcode]
    split <;> rfl

/-- C2 counterexample: from a fresh session on the all-zero stream, three
correct then three incorrect responses leave the staircase at 700 ms
before the sixth response, after which `displayMs` is 1000 ms — the
guided-mode reset — although no one-step clamped staircase update (and no
one-sided update of the source) maps 700 to 1000. -/
theorem c2_guided_reset_counterexample :
    (runFocusFlicker [] (List.replicate 5 (FlickerEvent.respond Choice.change 0))).displayMs = 700
    ∧ (runFocusFlicker []
        (List.replicate 6 (FlickerEvent.respond Choice.change 0))).displayMs = 1000
    ∧ (1000 : ℤ) ≠ specStaircase 700 true
    ∧ (1000 : ℤ) ≠ specStaircase 700 false
    ∧ (1000 : ℤ) ≠ max minDisplayMs (700 - stepMs)
    ∧ (1000 : ℤ) ≠ min maxDisplayMs (700 + stepMs) := by decide

/-- Witness for `c2_staircase_update`: the fresh session on the all-zero
stream satisfies the hypotheses, and the first response updates the
staircase accordingly. -/
theorem c2_staircase_update_witness :
    (initFlicker (generateTrials []).1).result = none
    ∧ (initFlicker (generateTrials []).1).inGuidedMode = false
    ∧ minDisplayMs ≤ (initFlicker (generateTrials []).1).displayMs
    ∧ (initFlicker (generateTrials []).1).displayMs ≤ maxDisplayMs
    ∧ (handleResponse (initFlicker (generateTrials []).1) Choice.change 0).displayMs =
        (if ((3 ≤ (if isCorrectResponse
                (((initFlicker (generateTrials []).1).trials).getD
                  (initFlicker (generateTrials []).1).idx default) Choice.change
              then 0 else (initFlicker (generateTrials []).1).consecutiveErrors + 1))
            ∧ (initFlicker (generateTrials []).1).guidedModeTriggered = false)
        then maxDisplayMs
        else specStaircase (initFlicker (generateTrials []).1).displayMs
          (isCorrectResponse (((initFlicker (generateTrials []).1).trials).getD
            (initFlicker (generateTrials []).1).idx default) Choice.change)) :=
  ⟨rfl, rfl, by decide, by decide,
    c2_staircase_update (initFlicker (generateTrials []).1) Choice.change 0
      rfl rfl (by decide) (by decide)⟩

theorem wrongChoiceFor_incorrect (t : FlickerTrial) :
    isCorrectResponse t (wrongChoiceFor t) = false := by
  cases h : t.hasChange <;> simp [wrongChoiceFor, isCorrectResponse, h]

theorem handleResponse_wrong_step (s : FlickerState) (choice : Choice) (rt : ℚ)
    (hres : s.result = none) (hg : s.inGuidedMode = false)
    (hwrong : isCorrectResponse (s.trials.getD s.idx default) choice = false)
    (hce : s.consecutiveErrors + 1 < 3)
    (hlen : s.idx + 1 < s.trials.length) :
    (handleResponse s choice rt).result = none
    ∧ (handleResponse s choice rt).inGuidedMode = false
    ∧ (handleResponse s choice rt).trials = s.trials
    ∧ (handleResponse s choice rt).idx = s.idx + 1
    ∧ (handleResponse s choice rt).consecutiveErrors = s.consecutiveErrors + 1
    ∧ (handleResponse s choice rt).guidedModeTriggered = s.guidedModeTriggered := by
  have htrig : ¬ (3 ≤ s.consecutiveErrors + 1) := by omega
  have hL : ¬ (s.trials.length ≤ s.idx + 1) := by omega
  have hwrong2 : isCorrectResponse (s.trials[s.idx]?.getD default) choice = false := by
    simpa using hwrong
  simp [handleResponse, hres, hg, hwrong2, htrig, hL]

theorem handleResponse_wrong_trigger (s : FlickerState) (choice : Choice) (rt : ℚ)
    (hres : s.result = none) (hg : s.inGuidedMode = false)
    (hwrong : isCorrectResponse (s.trials.getD s.idx default) choice = false)
    (hce : 3 ≤ s.consecutiveErrors + 1) (hgf : s.guidedModeTriggered = false) :
    (handleResponse s choice rt).guidedModeTriggered = true
    ∧ (handleResponse s choice rt).consecutiveErrors = 0
    ∧ (handleResponse s choice rt).inGuidedMode = true := by
  have hwrong2 : isCorrectResponse (s.trials[s.idx]?.getD default) choice = false := by
    simpa using hwrong
  simp [handleResponse, hres, hg, hwrong2, hce, hgf]

/-- C7: in the change-detection variant, three consecutive incorrect
responses from a fresh session set `guidedModeTriggered`, and the
consecutive-error counter is 0 immediately afterwards. -/
theorem c7_three_errors_guided (g : Rng) (rt1 rt2 rt3 : ℚ) :
    (runFocusFlicker g
      [FlickerEvent.respond (wrongChoiceFor ((generateTrials g).1.getD 0 default)) rt1,
       FlickerEvent.respond (wrongChoiceFor ((generateTrials g).1.getD 1 default)) rt2,
       FlickerEvent.respond (wrongChoiceFor ((generateTrials g).1.getD 2 default)) rt3]
      ).guidedModeTriggered = true
    ∧ (runFocusFlicker g
      [FlickerEvent.respond (wrongChoiceFor ((generateTrials g).1.getD 0 default)) rt1,
       FlickerEvent.respond (wrongChoiceFor ((generateTrials g).1.getD 1 default)) rt2,
       FlickerEvent.respond (wrongChoiceFor ((generateTrials g).1.getD 2 default)) rt3]
      ).consecutiveErrors = 0 := by
  have hl : (initFlicker (generateTrials g).1).trials.length = 36 := generateTrials_length g
  have hidx0 : (initFlicker (generateTrials g).1).idx = 0 := rfl
  have hce0 : (initFlicker (generateTrials g).1).consecutiveErrors = 0 := rfl
  obtain ⟨r1, g1, t1, i1, c1, f1⟩ :=
    handleResponse_wrong_step (initFlicker (generateTrials g).1)
      (wrongChoiceFor ((generateTrials g).1.getD 0 default)) rt1 rfl rfl
      (wrongChoiceFor_incorrect _)
      (by omega)
      (by omega)
  set s1 := handleResponse (initFlicker (generateTrials g).1)
    (wrongChoiceFor ((generateTrials g).1.getD 0 default)) rt1 with hs1
  obtain ⟨r2, g2, t2, i2, c2, f2⟩ :=
    handleResponse_wrong_step s1
      (wrongChoiceFor ((generateTrials g).1.getD 1 default)) rt2 r1 g1
      (by rw [t1, i1, hidx0]; exact wrongChoiceFor_incorrect _)
      (by omega)
      (by rw [t1, i1, hidx0, hl]; omega)
  set s2 := handleResponse s1
    (wrongChoiceFor ((generateTrials g).1.getD 1 default)) rt2 with hs2
  have htrig :=
    handleResponse_wrong_trigger s2
      (wrongChoiceFor ((generateTrials g).1.getD 2 default)) rt3 r2 g2
      (by rw [t2, t1, i2, i1, hidx0]; exact wrongChoiceFor_incorrect _)
      (by omega)
      (by rw [f2, f1]; rfl)
  exact ⟨htrig.1, htrig.2.1⟩

/-! ## C3, C8: change-detection scoring -/

set_option maxRecDepth 100000 in
unseal Rat.inv Rat.mul Rat.add Rat.sub Rat.ofScientific in
/-- C3 (code-bug evidence): a complete session (`c3events` on the all-zero
stream, last response correct at 500 ms) ends with the staircase at 400 ms
after the last trial's adjustment, yet the summary's threshold score is
computed as 63 — `round(100 * (1000 - 500) / 800)` from the stale
closure-captured 500 ms — instead of `round(100 * (1000 - 400) / 800) = 75`
demanded by the claim. -/
theorem c3_stale_final_staircase_eval :
    (runFocusFlicker [] c3events).displayMs = 400
    ∧ ((runFocusFlicker [] c3events).result.map
        (fun r => r.cognitive_flexibility_score)) = some 63
    ∧ thresholdScoreOf (runFocusFlicker [] c3events).displayMs = 75
    ∧ (63 : ℤ) ≠ 75 := by decide

/-- C8: the zero-denominator guards of `finishAssessment` define both
rates as 0 when their denominators are empty, and the attention score is
always the rounded weighted combination of the guarded rates — a
well-defined integer. -/
theorem c8_zero_denominator (data : List FlickerRec) (hits falseAlarms : Nat) :
    (changeTrialsOf data = 0 → hitRateOf data hits = 0)
    ∧ (noChangeTrialsOf data = 0 → falseAlarmRateOf data falseAlarms = 0)
    ∧ ∀ (displayMs : ℤ) (gf : Bool),
        (finishAssessment data displayMs hits falseAlarms gf).attention_score =
          jsRound (100 * (0.5 * ((thresholdScoreOf displayMs : ℚ) / 100)
            + 0.3 * hitRateOf data hits
            + 0.2 * (1 - falseAlarmRateOf data falseAlarms))) := by
  refine ⟨?_, ?_, ?_⟩
  · intro h
    simp [hitRateOf, h]
  · intro h
    simp [falseAlarmRateOf, h]
  · intro dms gf
    simp only [finishAssessment, jsRound]
    congr 2
    ring

/-- Witness for `c8_zero_denominator`: the empty history has no change
trials and no no-change trials, and both rates are 0. -/
theorem c8_zero_denominator_witness :
    changeTrialsOf [] = 0 ∧ hitRateOf [] 5 = 0
    ∧ noChangeTrialsOf [] = 0 ∧ falseAlarmRateOf [] 7 = 0 :=
  ⟨rfl, (c8_zero_denominator [] 5 7).1 rfl, rfl, (c8_zero_denominator [] 5 7).2.1 rfl⟩

/-! ## C6: the rule-training trigger -/

theorem handleCardSelect_ruleTraining_mono (trials : List FlexSortTrial) (s : MatchState)
    (k : Nat) (rt : ℚ) (h : s.ruleTrainingTriggered = true) :
    (handleCardSelect trials s k rt).ruleTrainingTriggered = true := by
  unfold handleCardSelect
  split
  · exact h
  · simp [h]

theorem foldl_handleCardSelect_ruleTraining_mono (trials : List FlexSortTrial)
    (responses : List (Nat × ℚ)) :
    ∀ (s : MatchState), s.ruleTrainingTriggered = true →
      (responses.foldl (fun s r => handleCardSelect trials s r.1 r.2)
        s).ruleTrainingTriggered = true := by
  induction responses with
  | nil => intro s h; exact h
  | cons r rs ih =>
    intro s h
    exact ih _ (handleCardSelect_ruleTraining_mono trials s r.1 r.2 h)

theorem handleCardSelect_ruleTraining_trigger (trials : List FlexSortTrial) (s : MatchState)
    (k : Nat) (rt : ℚ) (t : FlexSortTrial)
    (ht : trials[s.idx]? = some t) (hwrong : ¬ (k = t.correctIndex))
    (hce : 4 ≤ s.consecutiveErrors) :
    (handleCardSelect trials s k rt).ruleTrainingTriggered = true := by
  have h5 : 5 ≤ s.consecutiveErrors + 1 := by omega
  unfold handleCardSelect
  rw [ht]
  simp [hwrong, h5]

/-- C6 (amended): in the match variant an incorrect response that brings
the consecutive-error streak to 5 sets `ruleTrainingTriggered`, the flag
is monotone for the remainder of the session, and the summary copies it;
the claim's extension to the change-detection variant is false — that
variant has no rule-training trigger and `finishAssessment` hard-codes
`rule_training_triggered = false` (see the counterexample). -/
theorem c6_rule_training_amended :
    (∀ (trials : List FlexSortTrial) (s : MatchState) (k : Nat) (rt : ℚ) (t : FlexSortTrial),
      trials[s.idx]? = some t → ¬ (k = t.correctIndex) → 4 ≤ s.consecutiveErrors →
        (handleCardSelect trials s k rt).ruleTrainingTriggered = true)
    ∧ (∀ (trials : List FlexSortTrial) (responses : List (Nat × ℚ)) (s : MatchState),
        s.ruleTrainingTriggered = true →
          (responses.foldl (fun s r => handleCardSelect trials s r.1 r.2)
            s).ruleTrainingTriggered = true)
    ∧ (∀ (trialData : List MatchRec) (adapt : Nat) (gm rtf : Bool),
        (completeAssessment trialData adapt gm rtf).rule_training_triggered = rtf)
    ∧ (∀ (data : List FlickerRec) (dms : ℤ) (hits fas : Nat) (gf : Bool),
        (finishAssessment data dms hits fas gf).rule_training_triggered = false) :=
  ⟨handleCardSelect_ruleTraining_trigger,
    foldl_handleCardSelect_ruleTraining_mono,
    fun _ _ _ _ => rfl,
    fun _ _ _ _ _ => rfl⟩

set_option maxRecDepth 100000 in
unseal Rat.inv Rat.mul Rat.add Rat.sub Rat.ofScientific in
/-- C6 counterexample: a change-detection session (`c6events`, all-zero
stream) in which guided mode has already fired reaches 5 consecutive
errors on its 8th trial, yet the final summary reports
`rule_training_triggered = false` — the change-detection variant never
sets the flag. -/
theorem c6_counterexample :
    ((runFocusFlicker [] c6events).trialDataAccum.getD 7 default).consecutive_errors = 5
    ∧ ((runFocusFlicker [] c6events).result.map
        (fun r => r.rule_training_triggered)) = some false := by decide

/-- Witness for `c6_rule_training_amended`: a concrete trial list and a
state with four consecutive errors on which the fifth error sets the
flag, and monotonicity applied from a flagged state. -/
theorem c6_rule_training_amended_witness :
    ([({ target := default, options := [], correctIndex := 0, rule := Rule.color, blockIndex := 0 } : FlexSortTrial)][(({ consecutiveErrors := 4 } : MatchState)).idx]? =
      some ({ target := default, options := [], correctIndex := 0, rule := Rule.color, blockIndex := 0 } : FlexSortTrial))
    ∧ ¬ ((1 : Nat) = ({ target := default, options := [], correctIndex := 0, rule := Rule.color, blockIndex := 0 } : FlexSortTrial).correctIndex)
    ∧ 4 ≤ (({ consecutiveErrors := 4 } : MatchState)).consecutiveErrors
    ∧ (handleCardSelect
        [({ target := default, options := [], correctIndex := 0, rule := Rule.color, blockIndex := 0 } : FlexSortTrial)]
        ({ consecutiveErrors := 4 } : MatchState) 1 0).ruleTrainingTriggered = true
    ∧ (({ ruleTrainingTriggered := true } : MatchState)).ruleTrainingTriggered = true
    ∧ (([] : List (Nat × ℚ)).foldl
        (fun s r => handleCardSelect [] s r.1 r.2)
        ({ ruleTrainingTriggered := true } : MatchState)).ruleTrainingTriggered = true :=
  ⟨rfl, by decide, by decide,
    c6_rule_training_amended.1 _ _ 1 0 _ rfl (by decide) (by decide),
    rfl,
    c6_rule_training_amended.2.1 [] [] _ rfl⟩

/-! ## C5: the perseverative-error flag -/

theorem generateTrial_rule (rule : Rule) (blockIndex : Nat) (g : Rng) :
    (generateTrial rule blockIndex g).1.rule = rule := rfl

theorem generateTrial_blockIndex (rule : Rule) (blockIndex : Nat) (g : Rng) :
    (generateTrial rule blockIndex g).1.blockIndex = blockIndex := rfl

theorem genMatchBlock_spec (rule : Rule) (block : Nat) :
    ∀ (n : Nat) (g : Rng), (genMatchBlock rule block n g).1.length = n
      ∧ ∀ t ∈ (genMatchBlock rule block n g).1, t.rule = rule ∧ t.blockIndex = block := by
  intro n
  induction n with
  | zero => intro g; exact ⟨rfl, by intro t ht; simp [genMatchBlock] at ht⟩
  | succ n ih =>
    intro g
    refine ⟨?_, ?_⟩
    · simp only [genMatchBlock, List.length_cons]
      rw [(ih _).1]
    · intro t ht
      simp only [genMatchBlock, List.mem_cons] at ht
      rcases ht with rfl | ht
      · exact ⟨generateTrial_rule rule block g, generateTrial_blockIndex rule block g⟩
      · exact (ih _).2 t ht

theorem genMatchBlocks_length :
    ∀ (bs : List Nat) (g : Rng), (genMatchBlocks bs g).1.length = 6 * bs.length := by
  intro bs
  induction bs with
  | nil => intro g; rfl
  | cons b0 bs ih =>
    intro g
    simp only [genMatchBlocks, List.length_append, List.length_cons]
    rw [(genMatchBlock_spec (blockRule b0) b0 6 g).1, ih]
    ring

/-- The rule/block schedule of a match-trial list: trial `i` carries the
rule of block `i / 6` and that block index. -/
def goodSchedule (trials : List FlexSortTrial) : Prop :=
  ∀ (i : Nat) (t : FlexSortTrial), trials[i]? = some t →
    t.rule = blockRule (i / 6) ∧ t.blockIndex = i / 6

theorem genMatchBlocks_sched :
    ∀ (bs : List Nat) (g : Rng) (i : Nat) (t : FlexSortTrial),
      (genMatchBlocks bs g).1[i]? = some t →
      t.rule = blockRule (bs.getD (i / 6) 0) ∧ t.blockIndex = bs.getD (i / 6) 0 := by
  intro bs
  induction bs with
  | nil => intro g i t h; simp [genMatchBlocks] at h
  | cons b0 bs ih =>
    intro g i t h
    have hlen : (genMatchBlock (blockRule b0) b0 6 g).1.length = 6 :=
      (genMatchBlock_spec (blockRule b0) b0 6 g).1
    simp only [genMatchBlocks] at h
    by_cases hi : i < (genMatchBlock (blockRule b0) b0 6 g).1.length
    · rw [List.getElem?_append_left hi] at h
      have hmem : t ∈ (genMatchBlock (blockRule b0) b0 6 g).1 := List.getElem?_mem h
      have hfields := (genMatchBlock_spec (blockRule b0) b0 6 g).2 t hmem
      have hdiv : i / 6 = 0 := by omega
      rw [hdiv]
      exact hfields
    · push_neg at hi
      rw [List.getElem?_append_right hi, hlen] at h
      have hrec := ih (genMatchBlock (blockRule b0) b0 6 g).2 (i - 6) t h
      have h6 : 6 ≤ i := by omega
      have hdiv : i / 6 = (i - 6) / 6 + 1 := by omega
      rw [hdiv, List.getD_cons_succ]
      exact hrec

theorem genMatchTrials_sched (g : Rng) : goodSchedule (genMatchTrials g).1 := by
  intro i t h
  have hlen : (genMatchTrials g).1.length = 36 := by
    rw [genMatchTrials, genMatchBlocks_length]
    rfl
  have hi : i < 36 := by
    rw [← hlen]
    exact (List.getElem?_eq_some_iff.mp h).1
  have := genMatchBlocks_sched (List.range 6) g i t h
  rwa [List.getD_eq_getElem?_getD, List.getElem?_range (by omega : i / 6 < 6)] at this

theorem handleCardSelect_none (trials : List FlexSortTrial) (s : MatchState) (k : Nat)
    (rt : ℚ) (hT : trials[s.idx]? = none) : handleCardSelect trials s k rt = s := by
  simp [handleCardSelect, hT]

theorem handleCardSelect_some (trials : List FlexSortTrial) (s : MatchState) (k : Nat)
    (rt : ℚ) (t : FlexSortTrial) (hT : trials[s.idx]? = some t) :
    (handleCardSelect trials s k rt).idx = s.idx + 1
    ∧ ∃ entry : MatchRec,
        (handleCardSelect trials s k rt).trialData = s.trialData ++ [entry]
        ∧ entry.rule_block_number = t.blockIndex + 1
        ∧ entry.rule = t.rule
        ∧ (entry.perseverative = true →
            ¬ s.trialData.isEmpty = true
            ∧ ¬ (some t.rule = (s.trialData.getLast?).map (fun r => r.rule))
            ∧ 1 ≤ ((s.trialData.filter
                (fun r => r.rule_block_number = t.blockIndex + 1)).countP
                  (fun r => !r.correct))) := by
  unfold handleCardSelect
  rw [hT]
  refine ⟨rfl, _, rfl, rfl, rfl, ?_⟩
  intro h
  dsimp only at h
  split at h
  · exact absurd h (by simp)
  · split at h
    · next hemp => exact absurd h (by simp)
    · split at h
      · next hne =>
        refine ⟨by assumption, ?_, by simpa using h⟩
        simpa using hne
      · exact absurd h (by simp)

/-- The session invariant of the match variant: one record per answered
trial, block numbers and rules following the schedule, and no record ever
flagged perseverative. -/
def matchInv (s : MatchState) : Prop :=
  s.idx = s.trialData.length ∧
  ∀ (j : Nat) (r : MatchRec), s.trialData[j]? = some r →
    r.rule_block_number = j / 6 + 1 ∧ r.rule = blockRule (j / 6) ∧ r.perseverative = false

theorem handleCardSelect_matchInv (trials : List FlexSortTrial)
    (hsched : goodSchedule trials) (s : MatchState) (k : Nat) (rt : ℚ)
    (hinv : matchInv s) : matchInv (handleCardSelect trials s k rt) := by
  obtain ⟨hidx, hrecs⟩ := hinv
  cases hT : trials[s.idx]? with
  | none =>
    rw [handleCardSelect_none trials s k rt hT]
    exact ⟨hidx, hrecs⟩
  | some t =>
    obtain ⟨hidx2, entry, hdata, hrbn, hrule, hpers⟩ := handleCardSelect_some trials s k rt t hT
    have hts := hsched s.idx t hT
    constructor
    · rw [hidx2, hdata, List.length_append, hidx]
      rfl
    · intro j r hj
      rw [hdata] at hj
      by_cases hjlt : j < s.trialData.length
      · rw [List.getElem?_append_left hjlt] at hj
        exact hrecs j r hj
      · push_neg at hjlt
        rw [List.getElem?_append_right hjlt] at hj
        have hjlen : j = s.trialData.length := by
          by_contra hc
          have h1 : 1 ≤ j - s.trialData.length := by omega
          rw [List.getElem?_eq_none (by simpa using h1)] at hj
          exact Option.noConfusion hj
        have hr : r = entry := by
          rw [hjlen, Nat.sub_self] at hj
          simpa using hj.symm
        subst hr
        rw [hjlen]
        refine ⟨?_, ?_, ?_⟩
        · rw [hrbn, hts.2, hidx]
        · rw [hrule, hts.1, hidx]
        · cases hb : r.perseverative
          · rfl
          · exfalso
            obtain ⟨hne, hdiff, hcount⟩ := hpers hb
            have hpos : 0 < s.trialData.length := by
              cases hd : s.trialData
              · rw [hd] at hne
                simp at hne
              · simp [hd]
            by_cases hmod : s.idx % 6 = 0
            · have hempty : (s.trialData.filter
                  (fun r => r.rule_block_number = t.blockIndex + 1)) = [] := by
                rw [List.filter_eq_nil_iff]
                intro a ha
                obtain ⟨n, hn⟩ := List.mem_iff_getElem?.mp ha
                have hnlt : n < s.trialData.length :=
                  (List.getElem?_eq_some_iff.mp hn).1
                have hprops := hrecs n a hn
                rw [hprops.1, hts.2]
                simp only [decide_eq_true_eq]
                omega
              rw [hempty] at hcount
              simp at hcount
            · apply hdiff
              have hlt1 : s.trialData.length - 1 < s.trialData.length := by omega
              have hsome := List.getElem?_eq_getElem hlt1
              have hprops := hrecs (s.trialData.length - 1) _ hsome
              rw [List.getLast?_eq_getElem?, hsome]
              simp only [Option.map_some']
              rw [hts.1, hprops.2.1]
              have hdiv : (s.trialData.length - 1) / 6 = s.idx / 6 := by omega
              rw [hdiv]

theorem foldl_matchInv (trials : List FlexSortTrial) (hsched : goodSchedule trials)
    (responses : List (Nat × ℚ)) :
    ∀ (s : MatchState), matchInv s →
      matchInv (responses.foldl (fun s r => handleCardSelect trials s r.1 r.2) s) := by
  induction responses with
  | nil => intro s h; exact h
  | cons r rs ih =>
    intro s h
    exact ih _ (handleCardSelect_matchInv trials hsched s r.1 r.2 h)

theorem runMatch_inv (g : Rng) (responses : List (Nat × ℚ)) :
    matchInv (runMatch (genMatchTrials g).1 responses) := by
  have hinit : matchInv ({} : MatchState) := by
    constructor
    · rfl
    · intro j r hj
      simp at hj
  exact foldl_matchInv _ (genMatchTrials_sched g) responses {} hinit

theorem runMatch_no_perseverative (g : Rng) (responses : List (Nat × ℚ)) :
    (runMatch (genMatchTrials g).1 responses).trialData.countP
      (fun r => r.perseverative) = 0 := by
  rw [List.countP_eq_zero]
  intro r hr
  obtain ⟨n, hn⟩ := List.mem_iff_getElem?.mp hr
  have := ((runMatch_inv g responses).2 n r hn).2.2
  simp [this]

/-- C5 (amended): in every match-variant session — whatever the stream and
the responses — no trial is ever flagged perseverative, and the summary's
`perseverative_errors` is therefore always 0.  The flagging condition is
unsatisfiable: the rule differs from the prior trial's rule only on the
first trial of a block, where no error can already belong to that block. -/
theorem c5_no_perseverative_flags (g : Rng) (responses : List (Nat × ℚ)) :
    (runMatch (genMatchTrials g).1 responses).trialData.countP
      (fun r => r.perseverative) = 0
    ∧ (completeAssessmentM
        (runMatch (genMatchTrials g).1 responses)).perseverative_errors = 0 :=
  ⟨runMatch_no_perseverative g responses, runMatch_no_perseverative g responses⟩

/-- C5 counterexample: the claim's existential part — some trial sequence
flags an error perseverative — is false: no stream and no response
sequence ever produces a record with `perseverative = true`. -/
theorem c5_counterexample :
    ¬ ∃ (g : Rng) (responses : List (Nat × ℚ)) (r : MatchRec),
        r ∈ (runMatch (genMatchTrials g).1 responses).trialData
          ∧ r.perseverative = true := by
  rintro ⟨g, responses, r, hmem, hflag⟩
  have h := runMatch_no_perseverative g responses
  rw [List.countP_eq_zero] at h
  have := h r hmem
  simp [hflag] at this

/-! ## C9: the cognitive-flexibility score -/

/-- C9: for every non-empty match trial history the summary's
`cognitive_flexibility_score` is the rounded weighted combination of the
claim's accuracy, shift and error-control scores, with the
perfect-accuracy branch taking `max 90` first.  (The code's extra
`max 0` around the error-control score is redundant because
`totalErrors ≤ totalCount`.) -/
theorem c9_flexibility_score (trialData : List MatchRec) (adapt : Nat) (gm rtf : Bool)
    (h : 0 < trialData.length) :
    (completeAssessment trialData adapt gm rtf).cognitive_flexibility_score =
      if trialData.all (fun r => r.correct) then
        jsRound (max 90
          (0.6 * (100 * (trialData.countP (fun r => r.correct) : ℚ) / (trialData.length : ℚ))
            + 0.3 * (100 * (shiftsAchievedOf trialData : ℚ) / 5)
            + 0.1 * (100 * (1 -
              ((trialData.length - trialData.countP (fun r => r.correct) : Nat) : ℚ)
                / (trialData.length : ℚ)))))
      else
        jsRound
          (0.4 * (100 * (trialData.countP (fun r => r.correct) : ℚ) / (trialData.length : ℚ))
            + 0.4 * (100 * (shiftsAchievedOf trialData : ℚ) / 5)
            + 0.2 * (100 * (1 -
              ((trialData.length - trialData.countP (fun r => r.correct) : Nat) : ℚ)
                / (trialData.length : ℚ)))) := by
  have htq : (0:ℚ) < (trialData.length : ℚ) := by exact_mod_cast h
  have hcle : trialData.countP (fun r => r.correct) ≤ trialData.length :=
    List.countP_le_length _
  have hcast : ((trialData.length - trialData.countP (fun r => r.correct) : Nat) : ℚ)
      = (trialData.length : ℚ) - (trialData.countP (fun r => r.correct) : ℚ) := by
    exact Nat.cast_sub hcle
  have hcnn : (0:ℚ) ≤ (trialData.countP (fun r => r.correct) : ℚ) := by positivity
  have hdivle : ((trialData.length - trialData.countP (fun r => r.correct) : Nat) : ℚ)
      / (trialData.length : ℚ) ≤ 1 := by
    rw [div_le_one htq, hcast]
    linarith
  have hmax : max (0:ℚ)
      (100 - ((trialData.length - trialData.countP (fun r => r.correct) : Nat) : ℚ)
        / (trialData.length : ℚ) * 100)
      = 100 * (1 - ((trialData.length - trialData.countP (fun r => r.correct) : Nat) : ℚ)
        / (trialData.length : ℚ)) := by
    rw [max_eq_right (by linarith)]
    ring
  have hiff : (trialData.countP (fun r => r.correct) = trialData.length)
      ↔ (trialData.all (fun r => r.correct) = true) := by
    rw [List.countP_eq_length, List.all_eq_true]
  simp only [completeAssessment]
  by_cases hc : trialData.countP (fun r => r.correct) = trialData.length
  · rw [if_pos hc, if_pos (hiff.mp hc), hmax]
    congr 1
    congr 1
    ring
  · rw [if_neg hc, if_neg (fun hh => hc (hiff.mpr hh)), hmax]
    congr 1
    ring

unseal Rat.inv Rat.mul Rat.add Rat.sub Rat.ofScientific in
/-- Witness for `c9_flexibility_score`: the one-trial history consisting
of the default (incorrect) record has score 0. -/
theorem c9_flexibility_score_witness :
    0 < ([(default : MatchRec)]).length
    ∧ (completeAssessment [(default : MatchRec)] 0 false
        false).cognitive_flexibility_score = 0 := by
  refine ⟨by decide, ?_⟩
  have h := c9_flexibility_score [(default : MatchRec)] 0 false false (by decide)
  rw [h]
  decide
